import Mathlib

set_option maxHeartbeats 1000000

/-!
Shallow embedding of `backend/contacts/tasks.py`: the contact import,
merge, and booking-statistics tasks, together with proofs about them.
Machine state (users, contacts, interactions, bookings) is threaded
explicitly as a `DB` value; Django ORM calls become list operations on
that state; Python exceptions become an explicit `PyExc` value; storage
faults are injected through explicit fault parameters so that the
error-handling paths of the tasks can be examined.
-/

namespace Contacts

/-- A contact record (`contacts.models.Contact`); timestamps are naturals. -/
structure Contact where
  id : Nat
  organizer : Nat
  first_name : String
  last_name : String
  email : String
  phone : String
  company : String
  job_title : String
  notes : String
  tags : List String
  total_bookings : Nat
  last_booking_date : Option Nat
  deriving Repr, DecidableEq

/-- An interaction history record (`contacts.models.ContactInteraction`);
`contact` is the id of the owning contact (the field repointed by merge). -/
structure ContactInteraction where
  id : Nat
  contact : Nat
  organizer : Nat
  interaction_type : String
  description : String
  booking : Option Nat
  deriving Repr, DecidableEq

/-- An external booking (`apps.events.models.Booking`), restricted to the
fields `tasks.py` reads; `event_type` is inlined as name and duration. -/
structure Booking where
  id : Nat
  organizer : Nat
  invitee_email : String
  invitee_name : String
  invitee_phone : String
  status : String
  start_time : Nat
  event_type_name : String
  event_type_duration : Nat
  deriving Repr, DecidableEq

/-- The persistent state the tasks read and write.  `users` holds the ids of
existing `User` rows; `nextContactId` / `nextInteractionId` model primary-key
assignment on create. -/
structure DB where
  users : List Nat
  contacts : List Contact
  interactions : List ContactInteraction
  bookings : List Booking
  nextContactId : Nat
  nextInteractionId : Nat
  deriving Repr, DecidableEq

/-- A Python exception value, as far as the tasks distinguish them. -/
inductive PyExc where
  | nameError (name : String)
  | storageError (msg : String)
  deriving Repr, DecidableEq

/-- `str(e)` for the exceptions modelled here. -/
def pyExcMsg : PyExc → String
  | .nameError n => "name " ++ n ++ " is not defined"
  | .storageError m => m

/-- Evaluating the variable `row_num` inside `process_contact_import`: the
variable is never assigned anywhere in the function, so every reference to it
(lines 31, 37, 86 and 87 of `tasks.py`) raises `NameError`. -/
def row_num_eval : Except PyExc Nat := .error (.nameError "row_num")

/-- One CSV row as produced by `csv.DictReader`: a field-name-to-text map. -/
abbrev Row := List (String × String)

/-- Python `row.get(k)`: `some` value of the first matching key. -/
def rowGet (r : Row) (k : String) : Option String :=
  (r.find? (fun p => p.1 == k)).map (fun p => p.2)

/-- Python `row.get(k, d)`. -/
def rowGetD (r : Row) (k d : String) : String :=
  match rowGet r k with
  | some v => v
  | none => d

/-- Python whitespace for `str.strip()` (the ASCII cases). -/
def isSpaceChar (c : Char) : Bool :=
  c == ' ' || c == '\t' || c == '\n' || c == '\r'

/-- Drop leading whitespace characters. -/
def dropLeadingSpace : List Char → List Char
  | [] => []
  | c :: cs => if isSpaceChar c then dropLeadingSpace cs else c :: cs

/-- Python `s.strip()`: remove leading and trailing whitespace. -/
def pyStrip (s : String) : String :=
  String.mk (dropLeadingSpace ((dropLeadingSpace s.toList.reverse).reverse))

/-- ASCII lower-casing of one character, as Python `str.lower()` does on
the ASCII range. -/
def charLower (c : Char) : Char :=
  if 'A' ≤ c ∧ c ≤ 'Z' then Char.ofNat (c.toNat + 32) else c

/-- Python `s.lower()` (ASCII range). -/
def pyLower (s : String) : String :=
  String.mk (s.toList.map charLower)

/-- Python `s.split(sep)` for a one-character separator, on char lists:
always returns at least one (possibly empty) piece. -/
def splitOnChar (sep : Char) : List Char → List (List Char)
  | [] => [[]]
  | c :: cs =>
    let r := splitOnChar sep cs
    if c == sep then [] :: r
    else
      match r with
      | [] => [[c]]
      | h :: t => (c :: h) :: t

/-- Python `ch in s` for a single character. -/
def strHasChar (s : String) (c : Char) : Bool :=
  s.toList.contains c

/-- `email.split('@')[-1]`: the part after the last `@`. -/
def emailDomain (email : String) : String :=
  String.mk ((splitOnChar '@' email.toList).getLastD [])

/-- The validation on line 36 of `tasks.py`, stated positively: the email is
accepted iff it contains an `@` and the part after the last `@` contains
a `.` (note: more than one `@` is accepted). -/
def emailShapeOk (email : String) : Bool :=
  strHasChar email '@' && strHasChar (emailDomain email) '.'

/-- `Contact.objects.filter(organizer=org, email=email).first()`. -/
def findContact (db : DB) (org : Nat) (email : String) : Option Contact :=
  (db.contacts.filter (fun c => c.organizer == org && c.email == email)).head?

/-- `Contact.objects.filter(id=cid).first()`, also modelling
`Contact.objects.get(id=cid)` (absence raises `DoesNotExist`, which the
callers turn into an error result). -/
def findContactById (db : DB) (cid : Nat) : Option Contact :=
  (db.contacts.filter (fun c => c.id == cid)).head?

/-- `Booking.objects.filter(id=bid).first()`. -/
def findBookingById (db : DB) (bid : Nat) : Option Booking :=
  (db.bookings.filter (fun b => b.id == bid)).head?

/-- `[tag.strip() for tag in tags_str.split(',') if tag.strip()]`. -/
def splitTags (tags_str : String) : List String :=
  (((splitOnChar ',' tags_str.toList).map
      (fun cs => pyStrip (String.mk cs))).filter (fun t => t ≠ ""))

/-- Lines 50–62 of `tasks.py`: the in-memory update of an existing contact
from an import row with `update_existing=True`.  Each field uses
`row.get(field, existing_value)`, so a key absent from the row keeps the
existing value; a supplied `tags` field replaces the tag list when the raw
tags string is non-empty (Python truthiness). -/
def updateExistingContact (c : Contact) (row : Row) : Contact :=
  let c1 : Contact :=
    { c with
      first_name := rowGetD row "first_name" c.first_name
      last_name := rowGetD row "last_name" c.last_name
      phone := rowGetD row "phone" c.phone
      company := rowGetD row "company" c.company
      job_title := rowGetD row "job_title" c.job_title
      notes := rowGetD row "notes" c.notes }
  let tags_str := rowGetD row "tags" ""
  if tags_str ≠ "" then { c1 with tags := splitTags tags_str } else c1

/-- Lines 69–83 of `tasks.py`: the contact built by `Contact.objects.create`
for a fresh row; unsupplied fields default to the empty string, counters to
their model defaults. -/
def newContactFromRow (org : Nat) (email : String) (row : Row) (cid : Nat) :
    Contact :=
  let tags_str := rowGetD row "tags" ""
  { id := cid
    organizer := org
    first_name := rowGetD row "first_name" ""
    last_name := rowGetD row "last_name" ""
    email := email
    phone := rowGetD row "phone" ""
    company := rowGetD row "company" ""
    job_title := rowGetD row "job_title" ""
    notes := rowGetD row "notes" ""
    tags := if tags_str ≠ "" then splitTags tags_str else []
    total_bookings := 0
    last_booking_date := none }

/-- The mutable state of the import loop: the database plus the counters and
error list accumulated by `process_contact_import`. -/
structure ImportState where
  db : DB
  created_count : Nat
  updated_count : Nat
  skipped_count : Nat
  errors : List String
  deriving Repr, DecidableEq

/-- Lines 28–84 of `tasks.py`: the body of the inner `try` for one row.
`fault` injects a storage failure at this row's persist call (`save()` or
`create`), modelling an unexpected row-level failure.  Both row-rejection
branches evaluate the undefined `row_num` while building their error message
and therefore raise `NameError` (see `row_num_eval`). -/
def processRowBody (org : Nat) (skip_duplicates update_existing : Bool)
    (fault : Option String) (st : ImportState) (row : Row) :
    Except PyExc ImportState :=
  let email := pyLower (pyStrip (rowGetD row "email" ""))
  if email = "" then
    match row_num_eval with
    | .error e => .error e
    | .ok n =>
      .ok { st with
            errors := st.errors ++ ["Row " ++ toString n ++ ": Email is required"]
            skipped_count := st.skipped_count + 1 }
  else if emailShapeOk email = false then
    match row_num_eval with
    | .error e => .error e
    | .ok n =>
      .ok { st with
            errors := st.errors ++
              ["Row " ++ toString n ++ ": Invalid email format: " ++ email]
            skipped_count := st.skipped_count + 1 }
  else
    match findContact st.db org email with
    | some existing_contact =>
      if update_existing then
        match fault with
        | some msg => .error (.storageError msg)
        | none =>
          .ok { st with
                db := { st.db with
                        contacts := st.db.contacts.map
                          (fun c => if c.id == existing_contact.id then
                                      updateExistingContact existing_contact row
                                    else c) }
                updated_count := st.updated_count + 1 }
      else if skip_duplicates then
        .ok { st with skipped_count := st.skipped_count + 1 }
      else
        -- skip_duplicates=False, update_existing=False: the code falls
        -- through with no action (no counter, no note, no write).
        .ok st
    | none =>
      match fault with
      | some msg => .error (.storageError msg)
      | none =>
        .ok { st with
              db := { st.db with
                      contacts := st.db.contacts ++
                        [newContactFromRow org email row st.db.nextContactId]
                      nextContactId := st.db.nextContactId + 1 }
              created_count := st.created_count + 1 }

/-- The `for row in reader` loop (lines 27–88) with its `except` handler
(lines 85–88).  The handler's own f-string evaluates the undefined `row_num`
first, so any row-level exception turns into a `NameError` that escapes the
loop; the state reached so far (with its already-committed writes) is
returned together with the escaping exception.  `faults` gives the injected
storage fault, if any, per 0-based row index. -/
def runImportRows (org : Nat) (skip_duplicates update_existing : Bool)
    (faults : Nat → Option String) :
    Nat → ImportState → List Row → ImportState × Option PyExc
  | _, st, [] => (st, none)
  | i, st, row :: rest =>
    match processRowBody org skip_duplicates update_existing (faults i) st row with
    | .ok st2 =>
      runImportRows org skip_duplicates update_existing faults (i + 1) st2 rest
    | .error e =>
      match row_num_eval with
      | .error e2 => (st, some e2)
      | .ok n =>
        runImportRows org skip_duplicates update_existing faults (i + 1)
          { st with
            errors := st.errors ++ ["Row " ++ toString n ++ ": " ++ pyExcMsg e]
            skipped_count := st.skipped_count + 1 } rest

/-- The dictionary returned by `process_contact_import`: either the full
report (lines 90–103) or the error dictionary of the outer handlers
(lines 105–115), which carries only a message. -/
inductive ImportResult where
  | report (status : String) (message : String)
      (created_count updated_count skipped_count : Nat) (errors : List String)
  | failure (message : String)
  deriving Repr, DecidableEq

/-- The `status` entry of the returned dictionary. -/
def ImportResult.status : ImportResult → String
  | .report s _ _ _ _ _ => s
  | .failure _ => "error"

/-- Lines 12–115 of `tasks.py`: `process_contact_import`.  Returns the state
left behind (per-row writes are committed individually, so they survive an
abort) together with the result dictionary.  CSV parsing is taken as given:
the batch arrives as a list of rows. -/
def process_contact_import (db : DB) (organizer_id : Nat) (rows : List Row)
    (skip_duplicates update_existing : Bool) (faults : Nat → Option String) :
    DB × ImportResult :=
  if organizer_id ∈ db.users then
    let st0 : ImportState := ⟨db, 0, 0, 0, []⟩
    match runImportRows organizer_id skip_duplicates update_existing faults 0
        st0 rows with
    | (st, none) =>
      let base := "Import completed: " ++ toString st.created_count ++
        " created, " ++ toString st.updated_count ++ " updated, " ++
        toString st.skipped_count ++ " skipped"
      if st.errors.isEmpty then
        (st.db, .report "success" base st.created_count st.updated_count
          st.skipped_count (st.errors.take 10))
      else
        (st.db, .report "partial_success"
          (base ++ " with " ++ toString st.errors.length ++ " errors")
          st.created_count st.updated_count st.skipped_count
          (st.errors.take 10))
    | (st, some e) =>
      (st.db, .failure ("Error importing contacts: " ++ pyExcMsg e))
  else
    (db, .failure ("Organizer " ++ toString organizer_id ++ " not found"))

/-- Python substring test helper: is the first list a leading segment of
the second? -/
def charsStartWith : List Char → List Char → Bool
  | [], _ => true
  | _ :: _, [] => false
  | a :: as, b :: bs => a == b && charsStartWith as bs

/-- Does the first list occur as a contiguous segment of the second? -/
def charsHaveSub (n : List Char) : List Char → Bool
  | [] => charsStartWith n []
  | b :: bs => charsStartWith n (b :: bs) || charsHaveSub n bs

/-- Python `needle in hay` on strings: substring containment. -/
def pyIn (needle hay : String) : Bool :=
  charsHaveSub needle.toList hay.toList

/-- `list(set(a).union(set(b)))` on tag lists.  Python's set iteration order
is unspecified; this model keeps first occurrences, and no theorem below
depends on the order of the resulting tag list. -/
def setUnion (a b : List String) : List String :=
  (a ++ b).eraseDups

/-- The loop state of `merge_contact_data` (lines 127–153): the two
aggregate accumulators, the in-memory primary contact (whose tags and notes
the loop mutates), and the interaction table, on which each iteration's
bulk `update(contact=primary_contact)` takes effect immediately. -/
structure MergeLoopState where
  total_bookings : Nat
  latest_booking_date : Option Nat
  primary : Contact
  interactions : List ContactInteraction
  deriving Repr, DecidableEq

/-- One iteration of the `for duplicate in duplicate_contacts` loop
(lines 130–153 of `tasks.py`). -/
def mergeStep (st : MergeLoopState) (duplicate : Contact) : MergeLoopState :=
  let total := st.total_bookings + duplicate.total_bookings
  let latest :=
    match duplicate.last_booking_date with
    | none => st.latest_booking_date
    | some d =>
      match st.latest_booking_date with
      | none => some d
      | some l => if d > l then some d else some l
  let inters := st.interactions.map
    (fun i => if i.contact == duplicate.id then { i with contact := st.primary.id }
              else i)
  let p1 :=
    if duplicate.tags ≠ [] then
      { st.primary with tags := setUnion st.primary.tags duplicate.tags }
    else st.primary
  let p2 :=
    if duplicate.notes ≠ "" ∧ pyIn duplicate.notes p1.notes = false then
      if p1.notes ≠ "" then
        { p1 with notes := p1.notes ++ "\n\n--- Merged from " ++
            duplicate.email ++ " ---\n" ++ duplicate.notes }
      else
        { p1 with notes := duplicate.notes }
    else p1
  { total_bookings := total
    latest_booking_date := latest
    primary := p2
    interactions := inters }

/-- The two aggregate fields of the primary after the merge loop and the
final update (lines 127–158 of `tasks.py`): `total_bookings` after
`primary_contact.total_bookings += total_bookings`, and `last_booking_date`
after `if latest_booking_date: primary_contact.last_booking_date = ...`. -/
def mergedAggregates (p : Contact) (dups : List Contact) : Nat × Option Nat :=
  let st := dups.foldl mergeStep ⟨0, p.last_booking_date, p, []⟩
  (p.total_bookings + st.total_bookings,
   match st.latest_booking_date with
   | some d => some d
   | none => p.last_booking_date)

/-- The dictionary returned by `merge_contact_data`. -/
inductive MergeResult where
  | success (message : String) (merged_count : Nat)
  | failure (message : String)
  deriving Repr, DecidableEq

/-- The `status` entry of the merge result dictionary. -/
def MergeResult.status : MergeResult → String
  | .success _ _ => "success"
  | .failure _ => "error"

/-- The `merged_count` entry of the merge result dictionary, if present. -/
def MergeResult.mergedCount : MergeResult → Option Nat
  | .success _ n => some n
  | .failure _ => none

/-- Lines 119–180 of `tasks.py`: `merge_contact_data`.  The interaction
repointing inside the loop is a per-iteration bulk `update` that commits
immediately; the primary's own row is written only by the single `save()`
after the loop, and the duplicates are deleted after that.  There is no
transactional scope in the source, so `saveFault` / `deleteFault` inject a
storage failure at the `save()` / `delete()` call and the state reached so
far is kept. -/
def merge_contact_data (db : DB) (primary_contact_id : Nat)
    (duplicate_contact_ids : List Nat) (saveFault deleteFault : Bool) :
    DB × MergeResult :=
  match findContactById db primary_contact_id with
  | none =>
    (db, .failure ("Primary contact " ++ toString primary_contact_id ++
      " not found"))
  | some primary_contact =>
    let duplicate_contacts :=
      db.contacts.filter (fun c => duplicate_contact_ids.contains c.id)
    let st := duplicate_contacts.foldl mergeStep
      ⟨0, primary_contact.last_booking_date, primary_contact, db.interactions⟩
    let p0 := st.primary
    let p1 := { p0 with total_bookings := p0.total_bookings + st.total_bookings }
    let p2 :=
      match st.latest_booking_date with
      | some d => { p1 with last_booking_date := some d }
      | none => p1
    let db1 := { db with interactions := st.interactions }
    if saveFault then
      (db1, .failure "Error merging contacts: storage error")
    else
      let db2 := { db1 with
        contacts := db1.contacts.map
          (fun c => if c.id == primary_contact_id then p2 else c) }
      if deleteFault then
        (db2, .failure "Error merging contacts: storage error")
      else
        let db3 := { db2 with
          contacts := db2.contacts.filter
            (fun c => !(duplicate_contact_ids.contains c.id)) }
        (db3, .success ("Merged " ++ toString duplicate_contact_ids.length ++
          " contacts into " ++ p2.email) duplicate_contact_ids.length)

/-- `Booking.objects.filter(organizer=org, invitee_email=email,
status='confirmed')`. -/
def confirmedBookings (db : DB) (org : Nat) (email : String) : List Booking :=
  db.bookings.filter
    (fun b => b.organizer == org && b.invitee_email == email &&
      b.status == "confirmed")

/-- `bookings.order_by('-start_time').first()` reduced to the start time of
the most recent confirmed booking, `none` when there are none. -/
def lastConfirmedStart (db : DB) (org : Nat) (email : String) : Option Nat :=
  (confirmedBookings db org email).foldl
    (fun acc b =>
      match acc with
      | none => some b.start_time
      | some t => if b.start_time > t then some b.start_time else some t)
    none

/-- The dictionary returned by `update_single_contact_booking_stats`. -/
inductive StatsResult where
  | success (message : String) (total_bookings : Nat)
  | failure (message : String)
  deriving Repr, DecidableEq

/-- Lines 184–221 of `tasks.py`: `update_single_contact_booking_stats`
(the spec's `sync_one`). -/
def update_single_contact_booking_stats (db : DB) (contact_id : Nat) :
    DB × StatsResult :=
  match findContactById db contact_id with
  | none =>
    (db, .failure ("Contact " ++ toString contact_id ++ " not found"))
  | some contact =>
    let total := (confirmedBookings db contact.organizer contact.email).length
    let last := lastConfirmedStart db contact.organizer contact.email
    let c2 := { contact with total_bookings := total, last_booking_date := last }
    ({ db with contacts := (db.contacts.map
        (fun x => if x.id == contact_id then c2 else x)) },
     .success ("Updated booking stats for " ++ contact.email) total)

/-- Python `name.split(' ', 1)` packaged as (first part, rest): split at the
first space character only; absent space gives an empty second component. -/
def splitFirstSpace (s : String) : String × String :=
  let cs := s.toList
  match cs.findIdx? (fun c => c == ' ') with
  | none => (s, "")
  | some i => (String.mk (cs.take i), String.mk (cs.drop (i + 1)))

/-- The dictionary returned by `create_contact_from_booking`. -/
inductive BookingContactResult where
  | success (message : String) (created : Bool)
  | failure (message : String)
  deriving Repr, DecidableEq

/-- Lines 261–327 of `tasks.py`: `create_contact_from_booking` (the spec's
booking-triggered upsert).  Note that `get_or_create` keys on the raw
`booking.invitee_email` with no trimming, lower-casing or validation, and
that `last_booking_date` is assigned the triggering booking's `start_time`
unconditionally, while `total_bookings` is recomputed as the count of
confirmed bookings.  The interaction's strftime-formatted description is
reduced to its event-type prefix text. -/
def create_contact_from_booking (db : DB) (booking_id : Nat) :
    DB × BookingContactResult :=
  match findBookingById db booking_id with
  | none =>
    (db, .failure ("Booking " ++ toString booking_id ++ " not found"))
  | some booking =>
    let fl :=
      if booking.invitee_name ≠ "" then
        splitFirstSpace (pyStrip booking.invitee_name)
      else ("", "")
    let found := findContact db booking.organizer booking.invitee_email
    let step1 : DB × Contact × Bool :=
      match found with
      | some c => (db, c, false)
      | none =>
        let c : Contact :=
          { id := db.nextContactId
            organizer := booking.organizer
            first_name := fl.1
            last_name := fl.2
            email := booking.invitee_email
            phone := booking.invitee_phone
            company := ""
            job_title := ""
            notes := ""
            tags := []
            total_bookings := 0
            last_booking_date := none }
        ({ db with contacts := db.contacts ++ [c],
                   nextContactId := db.nextContactId + 1 }, c, true)
    let db1 := step1.1
    let contact := step1.2.1
    let created := step1.2.2
    let total := (confirmedBookings db1 booking.organizer booking.invitee_email).length
    let c2 := { contact with
                total_bookings := total
                last_booking_date := some booking.start_time }
    let db2 := { db1 with contacts := (db1.contacts.map
        (fun (x : Contact) => if x.id == contact.id then c2 else x)) }
    let inter : ContactInteraction :=
      { id := db2.nextInteractionId
        contact := c2.id
        organizer := booking.organizer
        interaction_type := "booking_created"
        description := "Booked " ++ booking.event_type_name
        booking := some booking.id }
    let db3 := { db2 with interactions := db2.interactions ++ [inter],
                          nextInteractionId := db2.nextInteractionId + 1 }
    (db3, .success (((if created then "Created" else "Updated") ++
      " contact for ") ++ booking.invitee_email) created)

def importBaseDB : DB := ⟨[1], [], [], [], 1, 1⟩

/-- No injected storage faults. -/
def noFaults : Nat → Option String := fun _ => none

/-- A storage fault at the second row (0-based index 1) only. -/
def faultRow1 : Nat → Option String :=
  fun i => if i == 1 then some "disk full" else none

/-- Three valid one-field rows with distinct emails. -/
def rowsABC : List Row :=
  [[("email", "a@x.com")], [("email", "b@x.com")], [("email", "c@x.com")]]

/-- A valid first row followed by a row with a malformed email. -/
def rowsGoodBad : List Row :=
  [[("email", "a@x.com"), ("first_name", "A")], [("email", "bad")]]

/-- An existing contact with company Acme. -/
def aliceC : Contact :=
  ⟨7, 1, "Al", "Ice", "alice@x.com", "", "Acme", "", "", [], 0, none⟩

/-- A database already holding `aliceC` for user 1. -/
def dbAlice : DB := ⟨[1], [aliceC], [], [], 8, 1⟩

/-- A primary contact for the merge fixtures. -/
def pC : Contact := ⟨1, 1, "P", "", "p@x.com", "", "", "", "", ["vip"], 2, none⟩

/-- A duplicate contact with bookings and a booking date. -/
def dC : Contact :=
  ⟨2, 1, "D", "", "d@x.com", "", "", "", "notesD", ["gold"], 3, some 50⟩

/-- An interaction owned by the duplicate `dC`. -/
def iC : ContactInteraction := ⟨10, 2, 1, "t", "d", none⟩

/-- A database with the primary, the duplicate, and its interaction. -/
def dbM : DB := ⟨[], [pC, dC], [iC], [], 3, 11⟩

/-- A cancelled booking for Bob, with a mixed-case invitee email. -/
def bkBob : Booking :=
  ⟨5, 1, "Bob@X.com", "Bob Smith", "555", "cancelled", 100, "Call", 30⟩

/-- A database holding only the booking `bkBob`. -/
def dbBob : DB := ⟨[1], [], [], [bkBob], 1, 1⟩

def stAlice : ImportState := ⟨dbAlice, 0, 0, 0, []⟩

def optMax : Option Nat → Option Nat → Option Nat
  | l, none => l
  | none, some d => some d
  | some l, some d => if d > l then some d else some l

def dC2 : Contact :=
  ⟨3, 1, "E", "", "e@x.com", "", "", "", "", [], 4, some 80⟩

def emailProvenance (db0 : DB) (c : Contact) : Prop :=
  (∃ c0 ∈ db0.contacts, c0.email = c.email)
  ∨ (c.email ≠ "" ∧ emailShapeOk c.email = true
      ∧ ∃ raw, c.email = pyLower (pyStrip raw))

def c7created : Contact := ⟨1, 1, "", "", "a@b@c.d", "", "", "", "", [], 0, none⟩

def bobCreated : Contact :=
  ⟨1, 1, "Bob", "Smith", "Bob@X.com", "555", "", "", "", [], 0, some 100⟩

/-! ### Helper lemmas -/

/-- The update path never changes the email field. -/
lemma updateExistingContact_email (c : Contact) (row : Row) :
    (updateExistingContact c row).email = c.email := by
  unfold updateExistingContact
  dsimp only
  split <;> rfl

/-- A resolved contact is in the table and has the looked-up id. -/
lemma findContactById_mem {db : DB} {cid : Nat} {p : Contact}
    (h : findContactById db cid = some p) : p ∈ db.contacts ∧ p.id = cid := by
  unfold findContactById at h
  have hmem : p ∈ db.contacts.filter (fun c => c.id == cid) := by
    cases hl : db.contacts.filter (fun c => c.id == cid) with
    | nil => rw [hl] at h; simp at h
    | cons q t =>
      rw [hl] at h
      simp at h
      rw [← h]
      exact List.mem_cons_self q t
  have h2 := List.mem_filter.mp hmem
  exact ⟨h2.1, by simpa using h2.2⟩

/-- A contact resolved by `(organizer, email)` is in the table and has that
owner and email. -/
lemma findContact_mem {db : DB} {org : Nat} {email : String} {p : Contact}
    (h : findContact db org email = some p) :
    p ∈ db.contacts ∧ p.organizer = org ∧ p.email = email := by
  unfold findContact at h
  have hmem : p ∈ db.contacts.filter
      (fun c => c.organizer == org && c.email == email) := by
    cases hl : db.contacts.filter
        (fun c => c.organizer == org && c.email == email) with
    | nil => rw [hl] at h; simp at h
    | cons q t =>
      rw [hl] at h
      simp at h
      rw [← h]
      exact List.mem_cons_self q t
  have h2 := List.mem_filter.mp hmem
  have h3 := h2.2
  simp at h3
  exact ⟨h2.1, h3.1, h3.2⟩

/-- Writing a row back unchanged (the `save()` of an unmodified contact)
leaves the table as it was, given unique ids. -/
lemma map_replace_self {l : List Contact} {p : Contact}
    (hmem : p ∈ l) (hnodup : (l.map (fun c => c.id)).Nodup) :
    l.map (fun c => if c.id == p.id then p else c) = l := by
  have key : ∀ c ∈ l, (if c.id == p.id then p else c) = c := by
    intro c hc
    by_cases h : c.id = p.id
    · have hcp : c = p := List.inj_on_of_nodup_map hnodup hc hmem h
      simp [hcp]
    · simp [h]
  calc l.map (fun c => if c.id == p.id then p else c)
      = l.map id := List.map_congr_left key
    _ = l := List.map_id l

lemma optMax_none_left (x : Option Nat) : optMax none x = x := by
  cases x <;> rfl

lemma optMax_none_right (a : Option Nat) : optMax a none = a := by
  cases a <;> rfl

lemma optMax_some_some (x y : Nat) :
    optMax (some x) (some y) = some (max x y) := by
  simp only [optMax]
  split <;> (congr 1; omega)

lemma optMax_rightComm (a b c : Option Nat) :
    optMax (optMax a b) c = optMax (optMax a c) b := by
  cases b with
  | none => simp only [optMax_none_right]
  | some y =>
    cases c with
    | none => simp only [optMax_none_right]
    | some z =>
      cases a with
      | none =>
        simp only [optMax_none_left, optMax_some_some]
        congr 1
        omega
      | some x =>
        simp only [optMax_some_some]
        congr 1
        omega

lemma mergeStep_total (st : MergeLoopState) (d : Contact) :
    (mergeStep st d).total_bookings = st.total_bookings + d.total_bookings := rfl

lemma mergeStep_latest (st : MergeLoopState) (d : Contact) :
    (mergeStep st d).latest_booking_date
      = optMax st.latest_booking_date d.last_booking_date := by
  cases hd : d.last_booking_date <;> cases hs : st.latest_booking_date <;>
    simp [mergeStep, optMax, hd, hs]

lemma mergeStep_primary_total (st : MergeLoopState) (d : Contact) :
    (mergeStep st d).primary.total_bookings = st.primary.total_bookings := by
  unfold mergeStep
  dsimp only
  split <;> split <;> first | rfl | (split <;> rfl)

lemma mergeStep_primary_last (st : MergeLoopState) (d : Contact) :
    (mergeStep st d).primary.last_booking_date
      = st.primary.last_booking_date := by
  unfold mergeStep
  dsimp only
  split <;> split <;> first | rfl | (split <;> rfl)

lemma mergeStep_primary_id (st : MergeLoopState) (d : Contact) :
    (mergeStep st d).primary.id = st.primary.id := by
  unfold mergeStep
  dsimp only
  split <;> split <;> first | rfl | (split <;> rfl)

lemma foldl_mergeStep_total (dups : List Contact) (st : MergeLoopState) :
    (dups.foldl mergeStep st).total_bookings
      = st.total_bookings + (dups.map (fun d => d.total_bookings)).sum := by
  induction dups generalizing st with
  | nil => simp
  | cons d t ih =>
    simp only [List.foldl_cons, List.map_cons, List.sum_cons]
    rw [ih, mergeStep_total]
    omega

lemma foldl_mergeStep_latest (dups : List Contact) (st : MergeLoopState) :
    (dups.foldl mergeStep st).latest_booking_date
      = (dups.map (fun d => d.last_booking_date)).foldl optMax
          st.latest_booking_date := by
  induction dups generalizing st with
  | nil => rfl
  | cons d t ih =>
    simp only [List.foldl_cons, List.map_cons]
    rw [ih, mergeStep_latest]

lemma foldl_mergeStep_primary_total (dups : List Contact) (st : MergeLoopState) :
    (dups.foldl mergeStep st).primary.total_bookings
      = st.primary.total_bookings := by
  induction dups generalizing st with
  | nil => rfl
  | cons d t ih =>
    simp only [List.foldl_cons]
    rw [ih, mergeStep_primary_total]

lemma foldl_mergeStep_primary_last (dups : List Contact) (st : MergeLoopState) :
    (dups.foldl mergeStep st).primary.last_booking_date
      = st.primary.last_booking_date := by
  induction dups generalizing st with
  | nil => rfl
  | cons d t ih =>
    simp only [List.foldl_cons]
    rw [ih, mergeStep_primary_last]

lemma foldl_mergeStep_primary_id (dups : List Contact) (st : MergeLoopState) :
    (dups.foldl mergeStep st).primary.id = st.primary.id := by
  induction dups generalizing st with
  | nil => rfl
  | cons d t ih =>
    simp only [List.foldl_cons]
    rw [ih, mergeStep_primary_id]

lemma optMax_eq_none_iff (a b : Option Nat) :
    optMax a b = none ↔ a = none ∧ b = none := by
  cases a <;> cases b <;> simp [optMax]
  split <;> simp

lemma foldl_optMax_eq_none {l : List (Option Nat)} {a : Option Nat}
    (h : l.foldl optMax a = none) : a = none := by
  induction l generalizing a with
  | nil => exact h
  | cons x t ih =>
    have h2 := ih h
    exact ((optMax_eq_none_iff a x).mp h2).1

lemma foldl_optMax_some_ge {l : List (Option Nat)} {t : Nat} {a : Option Nat}
    (ha : a = some t) : ∃ u, t ≤ u ∧ l.foldl optMax a = some u := by
  induction l generalizing t a with
  | nil => exact ⟨t, le_refl t, by rw [ha]; rfl⟩
  | cons x s ih =>
    subst ha
    obtain ⟨t2, ht2, heq⟩ : ∃ t2, t ≤ t2 ∧ optMax (some t) x = some t2 := by
      cases x with
      | none => exact ⟨t, le_refl t, rfl⟩
      | some d =>
        by_cases h : d > t
        · exact ⟨d, le_of_lt h, by simp [optMax, h]⟩
        · exact ⟨t, le_refl t, by simp [optMax, h]⟩
    obtain ⟨u, hu, hfold⟩ := ih heq
    refine ⟨u, le_trans ht2 hu, ?_⟩
    rw [List.foldl_cons]
    exact hfold

lemma foldl_optMax_perm {l1 l2 : List (Option Nat)} (h : l1.Perm l2) :
    ∀ a, l1.foldl optMax a = l2.foldl optMax a := by
  induction h with
  | nil => intro a; rfl
  | cons x _ ih => intro a; simp only [List.foldl_cons]; exact ih _
  | swap x y l => intro a; simp only [List.foldl_cons]; rw [optMax_rightComm]
  | trans _ _ ih1 ih2 => intro a; rw [ih1 a, ih2 a]

lemma mergedAggregates_fst (p : Contact) (dups : List Contact) :
    (mergedAggregates p dups).1
      = p.total_bookings + (dups.map (fun d => d.total_bookings)).sum := by
  unfold mergedAggregates
  dsimp only
  rw [foldl_mergeStep_total]
  dsimp only
  omega

lemma mergedAggregates_snd (p : Contact) (dups : List Contact) :
    (mergedAggregates p dups).2
      = (dups.map (fun d => d.last_booking_date)).foldl optMax
          p.last_booking_date := by
  unfold mergedAggregates
  dsimp only
  rw [foldl_mergeStep_latest]
  cases hf : (dups.map (fun d => d.last_booking_date)).foldl optMax
      p.last_booking_date with
  | some d => rfl
  | none => exact foldl_optMax_eq_none hf

/-- The primary row that a fault-free merge stores has exactly the
aggregates `mergedAggregates` computes from the resolved duplicates. -/
lemma merge_primary_aggregates (db : DB) (pid : Nat) (dupIds : List Nat)
    (q : Contact) (hq : findContactById db pid = some q)
    (hnd : dupIds.contains pid = false) :
    ∃ r ∈ (merge_contact_data db pid dupIds false false).1.contacts,
      r.id = pid ∧
      r.total_bookings = (mergedAggregates q
        (db.contacts.filter (fun c => dupIds.contains c.id))).1 ∧
      r.last_booking_date = (mergedAggregates q
        (db.contacts.filter (fun c => dupIds.contains c.id))).2 := by
  obtain ⟨hqmem, hqid⟩ := findContactById_mem hq
  unfold merge_contact_data
  rw [hq]
  dsimp only
  generalize hst : List.foldl mergeStep
      ⟨0, q.last_booking_date, q, db.interactions⟩
      (List.filter (fun c => dupIds.contains c.id) db.contacts) = st
  have hst_total : st.total_bookings
      = 0 + ((db.contacts.filter (fun c => dupIds.contains c.id)).map
          (fun d => d.total_bookings)).sum := by
    rw [← hst, foldl_mergeStep_total]
  have hst_latest : st.latest_booking_date
      = ((db.contacts.filter (fun c => dupIds.contains c.id)).map
          (fun d => d.last_booking_date)).foldl optMax q.last_booking_date := by
    rw [← hst, foldl_mergeStep_latest]
  have hst_ptotal : st.primary.total_bookings = q.total_bookings := by
    rw [← hst, foldl_mergeStep_primary_total]
  have hst_plast : st.primary.last_booking_date = q.last_booking_date := by
    rw [← hst, foldl_mergeStep_primary_last]
  have hst_pid : st.primary.id = q.id := by
    rw [← hst, foldl_mergeStep_primary_id]
  have hnd2 : pid ∉ dupIds := by simpa using hnd
  cases hlat : st.latest_booking_date with
  | none =>
    refine ⟨{ st.primary with
        total_bookings := st.primary.total_bookings + st.total_bookings },
      ?_, ?_, ?_, ?_⟩
    · apply List.mem_filter.mpr
      refine ⟨List.mem_map.mpr ⟨q, hqmem, by simp [hqid]⟩, ?_⟩
      simp [hst_pid, hqid, hnd2]
    · dsimp only
      rw [hst_pid, hqid]
    · dsimp only
      rw [mergedAggregates_fst, hst_ptotal, hst_total]
      omega
    · dsimp only
      rw [mergedAggregates_snd, hst_plast]
      rw [hlat] at hst_latest
      have hqnone := foldl_optMax_eq_none hst_latest.symm
      rw [hqnone] at hst_latest ⊢
      exact hst_latest
  | some d =>
    refine ⟨{ st.primary with
        total_bookings := st.primary.total_bookings + st.total_bookings,
        last_booking_date := some d },
      ?_, ?_, ?_, ?_⟩
    · apply List.mem_filter.mpr
      refine ⟨List.mem_map.mpr ⟨q, hqmem, by simp [hqid]⟩, ?_⟩
      simp [hst_pid, hqid, hnd2]
    · dsimp only
      rw [hst_pid, hqid]
    · dsimp only
      rw [mergedAggregates_fst, hst_ptotal, hst_total]
      omega
    · dsimp only
      rw [mergedAggregates_snd, ← hst_latest, hlat]

lemma emailProvenance_of_email_eq {db0 : DB} {c c2 : Contact}
    (h : emailProvenance db0 c) (he : c2.email = c.email) :
    emailProvenance db0 c2 := by
  rcases h with ⟨c0, hm, he0⟩ | ⟨h1, h2, raw, h3⟩
  · exact Or.inl ⟨c0, hm, by rw [he0, ← he]⟩
  · refine Or.inr ⟨?_, ?_, ⟨raw, ?_⟩⟩
    · rw [he]; exact h1
    · rw [he]; exact h2
    · rw [he]; exact h3

/-- One successful row step preserves email provenance: every stored email
either predates the batch or is normalized and shape-checked. -/
lemma processRowBody_email_provenance {org : Nat} {sd ue : Bool}
    {fault : Option String} {st st2 : ImportState} {row : Row} {db0 : DB}
    (hok : processRowBody org sd ue fault st row = .ok st2)
    (hinv : ∀ c ∈ st.db.contacts, emailProvenance db0 c) :
    ∀ c ∈ st2.db.contacts, emailProvenance db0 c := by
  unfold processRowBody at hok
  dsimp only at hok
  split at hok
  · simp [row_num_eval] at hok
  · split at hok
    · simp [row_num_eval] at hok
    · rename_i hne hshape
      split at hok
      · rename_i existing hfound
        split at hok
        · -- update_existing = true
          split at hok
          · exact absurd hok (by simp)
          · cases hok
            intro c hc
            dsimp only at hc
            obtain ⟨c1, hc1, hceq⟩ := List.mem_map.mp hc
            by_cases hid : (c1.id == existing.id) = true
            · rw [if_pos hid] at hceq
              obtain ⟨hexmem, -, -⟩ := findContact_mem hfound
              refine emailProvenance_of_email_eq (hinv existing hexmem) ?_
              rw [← hceq]
              exact updateExistingContact_email existing row
            · rw [if_neg hid] at hceq
              exact hceq ▸ hinv c1 hc1
        · split at hok
          · -- skip_duplicates = true
            cases hok
            intro c hc
            exact hinv c hc
          · cases hok
            intro c hc
            exact hinv c hc
      · -- no existing contact: create branch
        split at hok
        · exact absurd hok (by simp)
        · cases hok
          intro c hc
          dsimp only at hc
          rcases List.mem_append.mp hc with hold | hnew
          · exact hinv c hold
          · have hc2 := List.mem_singleton.mp hnew
            subst hc2
            have hshape2 : emailShapeOk (pyLower (pyStrip
                (rowGetD row "email" ""))) = true := by
              revert hshape
              cases emailShapeOk (pyLower (pyStrip (rowGetD row "email" ""))) <;>
                simp
            exact Or.inr ⟨hne, hshape2, ⟨rowGetD row "email" "", rfl⟩⟩

/-- Email provenance is preserved across the whole import loop. -/
lemma runImportRows_email_provenance (org : Nat) (sd ue : Bool)
    (faults : Nat → Option String) (db0 : DB) :
    ∀ (rows : List Row) (i : Nat) (st : ImportState),
      (∀ c ∈ st.db.contacts, emailProvenance db0 c) →
      ∀ c ∈ (runImportRows org sd ue faults i st rows).1.db.contacts,
        emailProvenance db0 c := by
  intro rows
  induction rows with
  | nil => intro i st hinv; exact hinv
  | cons r t ih =>
    intro i st hinv
    rw [runImportRows]
    cases hpb : processRowBody org sd ue (faults i) st r with
    | ok st2 =>
      exact ih (i + 1) st2 (processRowBody_email_provenance hpb hinv)
    | error e =>
      simp only [row_num_eval]
      exact hinv

/-- Every contact left by `process_contact_import` has email provenance
relative to the initial database. -/
lemma process_contact_import_email_provenance (db : DB) (org : Nat)
    (rows : List Row) (sd ue : Bool) (faults : Nat → Option String) :
    ∀ c ∈ (process_contact_import db org rows sd ue faults).1.contacts,
      emailProvenance db c := by
  unfold process_contact_import
  split
  · have hloop := runImportRows_email_provenance org sd ue faults db rows 0
      ⟨db, 0, 0, 0, []⟩ (fun c hc => Or.inl ⟨c, hc, rfl⟩)
    dsimp only
    cases hrun : runImportRows org sd ue faults 0 ⟨db, 0, 0, 0, []⟩ rows with
    | mk st exc =>
      rw [hrun] at hloop
      cases exc with
      | none =>
        dsimp only
        split
        · exact hloop
        · exact hloop
      | some e => exact hloop
  · intro c hc
    exact Or.inl ⟨c, hc, rfl⟩

/-! ### Claim theorems -/

theorem C1_row_failure_aborts_batch :
    ((process_contact_import importBaseDB 1 rowsABC true false faultRow1).2).status
        = "error"
    ∧ (process_contact_import importBaseDB 1 rowsABC true false faultRow1).2
        = .failure "Error importing contacts: name row_num is not defined"
    ∧ ((process_contact_import importBaseDB 1 rowsABC true false faultRow1).1.contacts.map
        (fun c => c.email)) = ["a@x.com"] := by
  refine ⟨rfl, rfl, rfl⟩

/-- C2: the claim says merge is atomic: on any failure the observable state
is unchanged.  The source wraps nothing in a transaction: the per-duplicate
interaction repointing commits immediately, so when the primary `save()`
fails the merge returns an error while the duplicate's interaction is
already repointed to the primary, the primary row is unmodified, and the
duplicate is not deleted — exactly the partial state the claim rules out. -/
theorem C2_merge_partial_state_on_save_failure :
    ((merge_contact_data dbM 1 [2] true false).2).status = "error"
    ∧ ((merge_contact_data dbM 1 [2] true false).1.interactions.map
        (fun i => i.contact)) = [1]
    ∧ (merge_contact_data dbM 1 [2] true false).1.contacts = dbM.contacts := by
  refine ⟨rfl, rfl, rfl⟩

/-- C3: with `update_existing=true`, every one of the six scalar fields
(first_name, last_name, phone, company, job_title, notes) that the import
row did not supply (its key is absent from the row) keeps the existing
contact's value: `row.get(field, existing_value)` falls back to the
existing value, and the tags branch touches no other field. -/
theorem C3_update_preserves_absent_fields (c : Contact) (row : Row) :
    (rowGet row "first_name" = none →
        (updateExistingContact c row).first_name = c.first_name)
    ∧ (rowGet row "last_name" = none →
        (updateExistingContact c row).last_name = c.last_name)
    ∧ (rowGet row "phone" = none →
        (updateExistingContact c row).phone = c.phone)
    ∧ (rowGet row "company" = none →
        (updateExistingContact c row).company = c.company)
    ∧ (rowGet row "job_title" = none →
        (updateExistingContact c row).job_title = c.job_title)
    ∧ (rowGet row "notes" = none →
        (updateExistingContact c row).notes = c.notes) := by
  unfold updateExistingContact
  dsimp only
  refine ⟨?_, ?_, ?_, ?_, ?_, ?_⟩ <;> intro h <;>
    (simp only [rowGetD, h]; split <;> rfl)

/-- Witness for C3: a contact with company Acme, updated from a row that
carries only an email key, still has company Acme. -/
theorem C3_witness :
    (updateExistingContact aliceC [("email", "alice@x.com")]).company = "Acme" :=
  (C3_update_preserves_absent_fields aliceC [("email", "alice@x.com")]).2.2.2.1 rfl

/-- C4 counterexample: the claim says the returned merged count equals the
number of duplicate ids that actually resolved.  Supplying ids `[2, 3]`
where only contact 2 exists yields `merged_count = 2` although exactly one
duplicate resolved: the code returns `len(duplicate_contact_ids)`. -/
theorem C4_merged_count_counterexample :
    ((merge_contact_data dbM 1 [2, 3] false false).2).mergedCount = some 2
    ∧ (dbM.contacts.filter
        (fun c => ([2, 3] : List Nat).contains c.id)).length = 1 := by
  refine ⟨rfl, rfl⟩

/-- C4 amended: whenever the primary resolves, the merged count the call
returns equals the number of duplicate ids supplied by the caller
(`len(duplicate_contact_ids)`), regardless of how many of them resolve.
The original claim (count of actually-resolved duplicates) is refuted by
`C4_merged_count_counterexample`. -/
theorem C4_merged_count_equals_supplied (db : DB) (pid : Nat)
    (dupIds : List Nat) (p : Contact)
    (hp : findContactById db pid = some p) :
    ((merge_contact_data db pid dupIds false false).2).mergedCount
      = some dupIds.length := by
  unfold merge_contact_data
  rw [hp]
  rfl

/-- Witness for the C4 amended theorem at a concrete database. -/
theorem C4_witness :
    ((merge_contact_data dbM 1 [2] false false).2).mergedCount = some 1 :=
  C4_merged_count_equals_supplied dbM 1 [2] pC rfl

/-- C5: the claim says status error occurs only when the whole call aborted
before processing, with zero counts.  In the code every error path (lines
31, 37, 87) evaluates the undefined `row_num`, so a batch whose first row is
imported and whose second row has a malformed email returns the error
dictionary even though processing had started and a contact was created. -/
theorem C5_error_status_after_processing_started :
    ((process_contact_import importBaseDB 1 rowsGoodBad true false noFaults).2).status
        = "error"
    ∧ (process_contact_import importBaseDB 1 rowsGoodBad true false noFaults).2
        = .failure "Error importing contacts: name row_num is not defined"
    ∧ ((process_contact_import importBaseDB 1 rowsGoodBad true false noFaults).1.contacts.map
        (fun c => c.email)) = ["a@x.com"] := by
  refine ⟨rfl, rfl, rfl⟩

/-- C6: the merged aggregates are iteration-order independent: the final
`total_bookings` is the primary's plus the sum over all duplicates, the
final `last_booking_date` is the `optMax` fold (maximum of the present
timestamps, `none` only when all are absent, so an absent value never
overrides a present one), the aggregates are invariant under any
permutation of the duplicate list, and the primary row that
`merge_contact_data` stores carries exactly these aggregates. -/
theorem C6_merge_aggregates_commutative (p : Contact) (dups dups2 : List Contact)
    (hperm : dups.Perm dups2) :
    (mergedAggregates p dups).1
        = p.total_bookings + (dups.map (fun d => d.total_bookings)).sum
    ∧ (mergedAggregates p dups).2
        = (p.last_booking_date :: dups.map (fun d => d.last_booking_date)).foldl
            optMax none
    ∧ (∀ t, p.last_booking_date = some t →
        ∃ u, t ≤ u ∧ (mergedAggregates p dups).2 = some u)
    ∧ mergedAggregates p dups = mergedAggregates p dups2
    ∧ (∀ (db : DB) (pid : Nat) (dupIds : List Nat) (q : Contact),
        findContactById db pid = some q → dupIds.contains pid = false →
        ∃ r ∈ (merge_contact_data db pid dupIds false false).1.contacts,
          r.id = pid ∧
          r.total_bookings = (mergedAggregates q
            (db.contacts.filter (fun c => dupIds.contains c.id))).1 ∧
          r.last_booking_date = (mergedAggregates q
            (db.contacts.filter (fun c => dupIds.contains c.id))).2) := by
  refine ⟨mergedAggregates_fst p dups, ?_, ?_, ?_, ?_⟩
  · rw [mergedAggregates_snd]
    simp only [List.foldl_cons, optMax_none_left]
  · intro t ht
    rw [mergedAggregates_snd]
    exact foldl_optMax_some_ge ht
  · refine Prod.ext ?_ ?_
    · rw [mergedAggregates_fst, mergedAggregates_fst]
      congr 1
      exact (hperm.map _).sum_eq
    · rw [mergedAggregates_snd, mergedAggregates_snd]
      exact foldl_optMax_perm (hperm.map _) _
  · intro db pid dupIds q hq hnd
    exact merge_primary_aggregates db pid dupIds q hq hnd

/-- Witness for C6: merging duplicates with 3 and 4 bookings in either
order gives the same aggregates, with total 2 + 3 + 4 = 9. -/
theorem C6_witness :
    mergedAggregates pC [dC, dC2] = mergedAggregates pC [dC2, dC]
    ∧ (mergedAggregates pC [dC, dC2]).1 = 9 := by
  have h := C6_merge_aggregates_commutative pC [dC, dC2] [dC2, dC]
    (List.Perm.swap dC2 dC [])
  exact ⟨h.2.2.2.1, by rw [h.1]; rfl⟩

/-- C7 counterexample: the claim says every stored contact email is
normalized and contains exactly one at-sign.  The import validation accepts
any email with at least one at-sign and a dot after the last one, so the row
email " A@b@c.D " is stored as "a@b@c.d", which contains two at-signs; and
the booking-triggered path stores `booking.invitee_email` verbatim, here the
non-lower-cased "Bob@X.com". -/
theorem C7_email_invariant_counterexample :
    ((process_contact_import importBaseDB 1 [[("email", " A@b@c.D ")]] true false
        noFaults).1.contacts.map (fun c => c.email)) = ["a@b@c.d"]
    ∧ ("a@b@c.d".toList.count '@') = 2
    ∧ ((create_contact_from_booking dbBob 5).1.contacts.map
        (fun c => c.email)) = ["Bob@X.com"]
    ∧ pyLower "Bob@X.com" ≠ "Bob@X.com" := by
  refine ⟨rfl, rfl, rfl, by decide⟩

/-- C7 amended: every contact email the import path stores is either an
email already present in the database or the lower-cased, trimmed form of
the row's email field, non-empty and accepted by the code's shape check
(at least one at-sign with a dot after the last one — not exactly one);
the booking-triggered path stores the booking's invitee email verbatim,
with no normalization or validation.  The original claim is refuted by
`C7_email_invariant_counterexample`. -/
theorem C7_email_handling_amended :
    (∀ (db : DB) (org : Nat) (rows : List Row) (sd ue : Bool)
        (faults : Nat → Option String) (c : Contact),
      c ∈ (process_contact_import db org rows sd ue faults).1.contacts →
      emailProvenance db c)
    ∧ (∀ (db : DB) (bid : Nat) (c : Contact),
      c ∈ (create_contact_from_booking db bid).1.contacts →
      (∃ c0 ∈ db.contacts, c0.email = c.email)
      ∨ (∃ b, findBookingById db bid = some b
          ∧ c.email = b.invitee_email)) := by
  constructor
  · intro db org rows sd ue faults c hc
    exact process_contact_import_email_provenance db org rows sd ue faults c hc
  · intro db bid c hc
    revert hc
    unfold create_contact_from_booking
    cases hb : findBookingById db bid with
    | none => intro hc; exact Or.inl ⟨c, hc, rfl⟩
    | some b =>
      dsimp only
      cases hf : findContact db b.organizer b.invitee_email with
      | some c0 =>
        dsimp only
        intro hc
        obtain ⟨c1, hc1, hceq⟩ := List.mem_map.mp hc
        obtain ⟨hc0mem, -, -⟩ := findContact_mem hf
        by_cases hid : (c1.id == c0.id) = true
        · rw [if_pos hid] at hceq
          exact Or.inl ⟨c0, hc0mem, by rw [← hceq]⟩
        · rw [if_neg hid] at hceq
          exact Or.inl ⟨c1, hc1, by rw [hceq]⟩
      | none =>
        dsimp only
        intro hc
        obtain ⟨c1, hc1, hceq⟩ := List.mem_map.mp hc
        by_cases hid : (c1.id == db.nextContactId) = true
        · rw [if_pos hid] at hceq
          exact Or.inr ⟨b, rfl, by rw [← hceq]⟩
        · rw [if_neg hid] at hceq
          rcases List.mem_append.mp hc1 with hold | hnew
          · exact Or.inl ⟨c1, hold, by rw [hceq]⟩
          · have hc2 := List.mem_singleton.mp hnew
            refine Or.inr ⟨b, rfl, ?_⟩
            rw [← hceq, hc2]

/-- Witness for the C7 amended theorem: the contact created from the row
email " A@b@c.D " and the contact created verbatim from Bob's booking. -/
theorem C7_witness :
    emailProvenance importBaseDB c7created
    ∧ ((∃ c0 ∈ dbBob.contacts, c0.email = bobCreated.email)
        ∨ (∃ b, findBookingById dbBob 5 = some b
            ∧ bobCreated.email = b.invitee_email)) :=
  ⟨C7_email_handling_amended.1 importBaseDB 1 [[("email", " A@b@c.D ")]]
      true false noFaults c7created (by decide),
   C7_email_handling_amended.2 dbBob 5 bobCreated (by decide)⟩

/-- C8 counterexample: the claim says the booking-triggered upsert
recomputes `last_booking_date` identically to `sync_one`, regardless of the
triggering booking's status.  For a cancelled booking (so zero confirmed
bookings) the upsert stores `last_booking_date = some 100` — the triggering
booking's start time — while running `sync_one` on the same contact stores
`none`. -/
theorem C8_upsert_not_sync_one_counterexample :
    ((create_contact_from_booking dbBob 5).1.contacts.map
        (fun c => c.last_booking_date)) = [some 100]
    ∧ ((update_single_contact_booking_stats
          (create_contact_from_booking dbBob 5).1 1).1.contacts.map
        (fun c => c.last_booking_date)) = [none] := by
  refine ⟨rfl, rfl⟩

/-- C8 amended: the booking-triggered upsert stores a contact keyed to the
booking's organizer and invitee email whose `total_bookings` is recomputed
exactly as `sync_one` computes it (the count of confirmed bookings for that
owner and email), but whose `last_booking_date` is the triggering booking's
own start time, regardless of that booking's status or recency.  The
original claim (recomputed identically to `sync_one`) is refuted by
`C8_upsert_not_sync_one_counterexample`. -/
theorem C8_upsert_stats_amended (db : DB) (bid : Nat) (b : Booking)
    (hb : findBookingById db bid = some b) :
    ∃ c ∈ (create_contact_from_booking db bid).1.contacts,
      c.organizer = b.organizer ∧ c.email = b.invitee_email ∧
      c.total_bookings
        = (confirmedBookings db b.organizer b.invitee_email).length ∧
      c.last_booking_date = some b.start_time := by
  unfold create_contact_from_booking
  rw [hb]
  dsimp only
  cases hf : findContact db b.organizer b.invitee_email with
  | some c0 =>
    obtain ⟨hc0mem, hc0org, hc0em⟩ := findContact_mem hf
    dsimp only
    refine ⟨{ c0 with
        total_bookings := (confirmedBookings db b.organizer b.invitee_email).length,
        last_booking_date := some b.start_time }, ?_, ?_, ?_, ?_, ?_⟩
    · exact List.mem_map.mpr ⟨c0, hc0mem, by simp⟩
    · exact hc0org
    · exact hc0em
    · rfl
    · rfl
  | none =>
    dsimp only
    refine ⟨⟨db.nextContactId, b.organizer,
        (if b.invitee_name ≠ "" then splitFirstSpace (pyStrip b.invitee_name)
          else ("", "")).1,
        (if b.invitee_name ≠ "" then splitFirstSpace (pyStrip b.invitee_name)
          else ("", "")).2,
        b.invitee_email, b.invitee_phone, "", "", "", [],
        (confirmedBookings db b.organizer b.invitee_email).length,
        some b.start_time⟩, ?_, ?_, ?_, ?_, ?_⟩
    · apply List.mem_map.mpr
      refine ⟨⟨db.nextContactId, b.organizer,
          (if b.invitee_name ≠ "" then splitFirstSpace (pyStrip b.invitee_name)
            else ("", "")).1,
          (if b.invitee_name ≠ "" then splitFirstSpace (pyStrip b.invitee_name)
            else ("", "")).2,
          b.invitee_email, b.invitee_phone, "", "", "", [], 0, none⟩, ?_, ?_⟩
      · exact List.mem_append.mpr (Or.inr (List.mem_singleton.mpr rfl))
      · simp
        rfl
    · rfl
    · rfl
    · rfl
    · rfl

/-- Witness for the C8 amended theorem on the cancelled-booking fixture. -/
theorem C8_witness :
    ∃ c ∈ (create_contact_from_booking dbBob 5).1.contacts,
      c.organizer = bkBob.organizer ∧ c.email = bkBob.invitee_email ∧
      c.total_bookings
        = (confirmedBookings dbBob bkBob.organizer bkBob.invitee_email).length ∧
      c.last_booking_date = some bkBob.start_time :=
  C8_upsert_stats_amended dbBob 5 bkBob rfl

/-- C9 counterexample: the claim says an existing-email row processed with
`skip_duplicates=false, update_existing=false` increments `skipped_count`
and records an informational note.  The code falls through with no action:
the report counts 0 created, 0 updated, 0 skipped, records nothing, and the
database is unchanged. -/
theorem C9_no_skip_counterexample :
    process_contact_import dbAlice 1 [[("email", "alice@x.com")]] false false
        noFaults
      = (dbAlice, .report "success"
          "Import completed: 0 created, 0 updated, 0 skipped" 0 0 0 []) := by
  rfl

/-- C9 amended: when the normalized row email is non-empty, passes the shape
check, and matches an existing contact, a row processed with
`skip_duplicates=false, update_existing=false` falls through with no action
at all — the loop state (database, all three counters, error list) is
returned unchanged.  The original claim said the row is counted as skipped
with an informational note; `C9_no_skip_counterexample` refutes that. -/
theorem C9_existing_row_without_flags_is_noop (org : Nat) (fault : Option String)
    (st : ImportState) (row : Row) (c : Contact)
    (hne : pyLower (pyStrip (rowGetD row "email" "")) ≠ "")
    (hok : emailShapeOk (pyLower (pyStrip (rowGetD row "email" ""))) = true)
    (hfound : findContact st.db org (pyLower (pyStrip (rowGetD row "email" ""))) = some c) :
    processRowBody org false false fault st row = .ok st := by
  unfold processRowBody
  simp [hne, hok, hfound]

/-- Witness for the C9 amended theorem at a concrete database and row. -/
theorem C9_witness :
    processRowBody 1 false false none stAlice [("email", "alice@x.com")]
      = .ok stAlice :=
  C9_existing_row_without_flags_is_noop 1 none stAlice
    [("email", "alice@x.com")] aliceC (by decide) (by decide) rfl

/-- C10: merging with a duplicate id set that resolves to no contacts is an
identity on the whole database: the primary is rewritten with its own
unchanged field values, nothing is deleted, no interaction is repointed,
and the call reports success (with `merged_count` still the supplied id
count).  The id-uniqueness hypothesis reflects the primary-key constraint
of the storage layer. -/
theorem C10_merge_empty_duplicates_identity (db : DB) (pid : Nat)
    (dupIds : List Nat) (p : Contact)
    (hp : findContactById db pid = some p)
    (hnone : db.contacts.filter (fun c => dupIds.contains c.id) = [])
    (hnodup : (db.contacts.map (fun c => c.id)).Nodup) :
    merge_contact_data db pid dupIds false false
      = (db, .success ("Merged " ++ toString dupIds.length ++
          " contacts into " ++ p.email) dupIds.length) := by
  obtain ⟨hmem, hid⟩ := findContactById_mem hp
  have hall : ∀ c ∈ db.contacts, dupIds.contains c.id = false := by
    intro c hc
    have := List.filter_eq_nil_iff.mp hnone c hc
    simpa using this
  have hp2 : (match p.last_booking_date with
      | some d => { p with total_bookings := p.total_bookings + 0,
                           last_booking_date := some d }
      | none => { p with total_bookings := p.total_bookings + 0 } : Contact) = p := by
    cases p with
    | mk i o fn ln em ph co jt no tg tb lbd => cases lbd <;> rfl
  have hfilter : db.contacts.filter (fun c => !dupIds.contains c.id)
      = db.contacts := by
    apply List.filter_eq_self.mpr
    intro a ha
    simpa using hall a ha
  unfold merge_contact_data
  rw [hp]
  dsimp only
  rw [hnone]
  dsimp only [List.foldl_nil]
  rw [hp2]
  simp only [Bool.false_eq_true, if_false]
  rw [← hid, map_replace_self hmem hnodup, hfilter]

/-- Witness for C10 at a concrete one-contact database. -/
theorem C10_witness :
    merge_contact_data dbAlice 7 [2] false false
      = (dbAlice, .success "Merged 1 contacts into alice@x.com" 1) :=
  C10_merge_empty_duplicates_identity dbAlice 7 [2] aliceC rfl rfl (by decide)

end Contacts
